import Mathlib

/-!
Verification of the paper-metadata extraction and fuzzy document-retrieval
subsystem of the voya backend (`app/main.py`).

The Python module drives its extraction with `re.search` over a fixed set of
patterns.  We embed the patterns as an explicit regular-expression syntax tree
(`RE`) together with a backtracking matcher that follows Python's `re`
semantics on the constructs the module uses: leftmost match wins, alternation
prefers the left branch, quantifiers are greedy with backtracking, `\b` is a
word boundary, and matching is case-insensitive (`re.IGNORECASE`), as every
call site of the module passes that flag.  Capture groups are recorded so the
`m.group(i)` reads of the module can be evaluated.

External collaborators are made explicit parameters:
  * the `rapidfuzz` scorer (`fuzz.token_set_ratio`) becomes an
    `Option Scorer` argument (`none` models the library being absent); its
    value is modelled as a natural number, the order comparisons being all
    the module uses of it;
  * `pypdf` and the filesystem become an `Option (String → DocResult)`
    argument of the loader (`none` models `PdfReader is None`), a
    `DocResult` saying whether the path is missing, fails to open, or yields
    a list of pages whose per-page text extraction may fail (`Option String`,
    `none` meaning `page.extract_text()` raised or returned `None`).
-/

set_option maxRecDepth 100000

/-- The ASCII characters Python's `str.strip` and `\s` treat as whitespace. -/
def isPySpace (c : Char) : Bool :=
  c == ' ' || c == '\t' || c == '\n' || c == '\r' || c == '\x0b' || c == '\x0c'

/-- Python `str.strip()`: remove leading and trailing whitespace. -/
def pyStrip (s : String) : String :=
  ⟨((s.data.dropWhile isPySpace).reverse.dropWhile isPySpace).reverse⟩

/-- Python `not t.strip()`: the string is empty or all whitespace. -/
def isBlank (t : String) : Bool := t.data.all isPySpace

/-- Python `\w` word character (ASCII range, the only range the inputs use). -/
def isWordChar (c : Char) : Bool := c.isAlphanum || c == '_'

/-- Regular-expression syntax: exactly the constructs the module's patterns
use.  `cls` is a one-character class, `grp` a numbered capture group, `wb`
the zero-width word boundary `\b`. -/
inductive RE where
  | eps : RE
  | cls : (Char → Bool) → RE
  | seq : RE → RE → RE
  | alt : RE → RE → RE
  | opt : RE → RE
  | star : RE → RE
  | grp : Nat → RE → RE
  | wb : RE

/-- Captured groups: group number paired with the captured characters. -/
abbrev Groups := List (Nat × List Char)

/-- `\b` holds between `prev` and the next character iff exactly one side is a
word character (a missing side counts as non-word). -/
def atBoundary (prev : Option Char) (s : List Char) : Bool :=
  let a := match prev with | some c => isWordChar c | none => false
  let b := match s with | c :: _ => isWordChar c | [] => false
  a != b

/-- Backtracking matcher in continuation-passing style, mirroring Python's
`re` on the constructs in use: alternation tries the left branch first,
`opt` and `star` are greedy, and a branch commits only when the whole
continuation succeeds.  `prev` is the character before the current position
(for `\b`), `g` the groups captured so far.  The fuel bounds the recursion
depth; every concrete evaluation below is run with fuel exceeding the
pattern size plus the input length, which the call structure never exhausts. -/
def reM : Nat → RE → Option Char → List Char → Groups →
    (Option Char → List Char → Groups → Option Groups) → Option Groups
  | 0, _, _, _, _, _ => none
  | _ + 1, .eps, prev, s, g, k => k prev s g
  | _ + 1, .wb, prev, s, g, k => if atBoundary prev s then k prev s g else none
  | _ + 1, .cls p, _, s, g, k =>
    match s with
    | [] => none
    | c :: rest => if p c then k (some c) rest g else none
  | fuel + 1, .seq a b, prev, s, g, k =>
    reM fuel a prev s g (fun p2 s2 g2 => reM fuel b p2 s2 g2 k)
  | fuel + 1, .alt a b, prev, s, g, k =>
    match reM fuel a prev s g k with
    | some r => some r
    | none => reM fuel b prev s g k
  | fuel + 1, .opt r, prev, s, g, k =>
    match reM fuel r prev s g k with
    | some res => some res
    | none => k prev s g
  | fuel + 1, .star r, prev, s, g, k =>
    match reM fuel r prev s g (fun p2 s2 g2 => reM fuel (.star r) p2 s2 g2 k) with
    | some res => some res
    | none => k prev s g
  | fuel + 1, .grp n r, prev, s, g, k =>
    reM fuel r prev s g (fun p2 s2 g2 => k p2 s2 ((n, s.take (s.length - s2.length)) :: g2))

/-- `re.search` from a given position: try a match here, else advance one
character, keeping the character before the position for `\b`. -/
def reSearchFrom (fuel : Nat) (r : RE) : Option Char → List Char → Option Groups
  | prev, [] => reM fuel r prev [] [] (fun _ _ g => some g)
  | prev, c :: rest =>
    match reM fuel r prev (c :: rest) [] (fun _ _ g => some g) with
    | some g => some g
    | none => reSearchFrom fuel r (some c) rest

/-- Fuel ample for the module's patterns: their nesting depth is under 300
nodes and each quantifier iteration consumes input. -/
def fuelFor (s : List Char) : Nat := s.length + 400

/-- `re.search(pattern, text, flags=re.IGNORECASE)`: `some` groups of the
leftmost match, or `none`. -/
def reSearch (r : RE) (t : String) : Option Groups :=
  reSearchFrom (fuelFor t.data) r none t.data

/-- `m.group(n)`: the capture of group `n` of a successful match. -/
def grpStr (g : Groups) (n : Nat) : String :=
  match g.find? (fun p => p.1 == n) with
  | some p => ⟨p.2⟩
  | none => ""

/-- A case-insensitive literal, character by character (`re.IGNORECASE`). -/
def lit (w : String) : RE :=
  w.data.foldr (fun c r => RE.seq (RE.cls (fun x => x.toLower == c.toLower)) r) RE.eps

/-- `\s` -/
def wsCls : RE := RE.cls isPySpace
/-- `\s*` -/
def ws0 : RE := RE.star wsCls
/-- `\s+` -/
def ws1 : RE := RE.seq wsCls ws0
/-- `\d` -/
def digitCls : RE := RE.cls Char.isDigit
/-- `\d{1,2}` (greedy) -/
def d12 : RE := RE.seq digitCls (RE.opt digitCls)
/-- `\d{2}` -/
def d2 : RE := RE.seq digitCls digitCls

/-- Right-nested sequence of the given factors. -/
def seqs : List RE → RE
  | [] => RE.eps
  | [r] => r
  | r :: rs => RE.seq r (seqs rs)

/-- Left-preferring alternation of the given branches. -/
def alts : List RE → RE
  | [] => RE.cls (fun _ => false)
  | [r] => r
  | r :: rs => RE.alt r (alts rs)

/-- The `MONTHS` alternation of `app/main.py` line 61:
`Jan(?:uary)?|Feb(?:ruary)?|Mar(?:ch)?|Apr(?:il)?|May|Jun(?:e)?|Jul(?:y)?|`
`Aug(?:ust)?|Sep(?:t(?:ember)?)?|Oct(?:ober)?|Nov(?:ember)?|Dec(?:ember)?`
(the surrounding capture group is added at each use site). -/
def monthRE : RE := alts [
  seqs [lit "Jan", RE.opt (lit "uary")],
  seqs [lit "Feb", RE.opt (lit "ruary")],
  seqs [lit "Mar", RE.opt (lit "ch")],
  seqs [lit "Apr", RE.opt (lit "il")],
  lit "May",
  seqs [lit "Jun", RE.opt (lit "e")],
  seqs [lit "Jul", RE.opt (lit "y")],
  seqs [lit "Aug", RE.opt (lit "ust")],
  seqs [lit "Sep", RE.opt (seqs [lit "t", RE.opt (lit "ember")])],
  seqs [lit "Oct", RE.opt (lit "ober")],
  seqs [lit "Nov", RE.opt (lit "ember")],
  seqs [lit "Dec", RE.opt (lit "ember")]]

/-- `YEAR` of line 62: `20\d{2}|19\d{2}|\d{2}` (capture group added at use). -/
def yearRE : RE := alts [seqs [lit "20", d2], seqs [lit "19", d2], d2]

/-- `EXAM_HINTS` of lines 64-74, label and pattern pairs in source order. -/
def EXAM_HINTS : List (String × RE) := [
  ("Cambridge IGCSE",
    seqs [RE.wb,
      RE.grp 1 (RE.alt (seqs [lit "Cambridge", ws1, lit "IGCSE"])
                       (seqs [lit "CIE", ws1, lit "IGCSE"])),
      RE.wb]),
  ("IGCSE", seqs [RE.wb, lit "IGCSE", RE.wb]),
  ("GCSE", seqs [RE.wb, lit "GCSE", RE.wb]),
  ("AQA", seqs [RE.wb, lit "AQA", RE.wb]),
  ("Edexcel", seqs [RE.wb, lit "Edexcel", RE.wb]),
  ("IB", RE.alt (seqs [RE.wb, lit "International", ws1, lit "Baccalaureate", RE.wb])
                (seqs [RE.wb, lit "IB", RE.wb])),
  ("Cambridge", RE.alt (seqs [RE.wb, lit "CIE", RE.wb])
                       (seqs [RE.wb, lit "Cambridge", RE.wb])),
  ("SAT", seqs [RE.wb, lit "SAT", RE.wb]),
  ("ACT", seqs [RE.wb, lit "ACT", RE.wb])]

/-- Kinds tagging `SESSION_PATTERNS`, as the strings of lines 83-87. -/
inductive SessKind where
  | twoMonthsYear | monthYear | yearOnly
deriving DecidableEq

/-- `\b{MONTHS}\s*/\s*{MONTHS}\s*{YEAR}\b` (groups 1, 2, 3). -/
def patTwoMonthsYear : RE :=
  seqs [RE.wb, RE.grp 1 monthRE, ws0, lit "/", ws0, RE.grp 2 monthRE, ws0,
        RE.grp 3 yearRE, RE.wb]

/-- `\b{MONTHS}\s*{YEAR}\b` (groups 1, 2). -/
def patMonthYear : RE := seqs [RE.wb, RE.grp 1 monthRE, ws0, RE.grp 2 yearRE, RE.wb]

/-- `\b{YEAR}\b` (group 1). -/
def patYearOnly : RE := seqs [RE.wb, RE.grp 1 yearRE, RE.wb]

/-- `SESSION_PATTERNS` of lines 83-87, in source order. -/
def SESSION_PATTERNS : List (RE × SessKind) := [
  (patTwoMonthsYear, .twoMonthsYear),
  (patMonthYear, .monthYear),
  (patYearOnly, .yearOnly)]

/-- Kinds tagging `PAPER_PATTERNS`, as the strings of lines 76-81. -/
inductive PaperKind where
  | both | paperOnly | variantOnly
deriving DecidableEq

/-- `\bPaper\s*(\d{1,2})\s*Variant\s*(\d{1,2})\b` -/
def patPaperVariant : RE :=
  seqs [RE.wb, lit "Paper", ws0, RE.grp 1 d12, ws0, lit "Variant", ws0,
        RE.grp 2 d12, RE.wb]

/-- `\bPaper\s*(\d{1,2})\b` -/
def patPaperOnly : RE := seqs [RE.wb, lit "Paper", ws0, RE.grp 1 d12, RE.wb]

/-- `\bVariant\s*(\d{1,2})\b` -/
def patVariantOnly : RE := seqs [RE.wb, lit "Variant", ws0, RE.grp 1 d12, RE.wb]

/-- `\bP(?:aper)?\s*(\d{1,2})\b` -/
def patPAbbrev : RE :=
  seqs [RE.wb, lit "P", RE.opt (lit "aper"), ws0, RE.grp 1 d12, RE.wb]

/-- `PAPER_PATTERNS` of lines 76-81, in source order. -/
def PAPER_PATTERNS : List (RE × PaperKind) := [
  (patPaperVariant, .both),
  (patPaperOnly, .paperOnly),
  (patVariantOnly, .variantOnly),
  (patPAbbrev, .paperOnly)]

/-- Python `int(y)` on the digit strings the regex captures produce (`none`
where `int` would raise, a case no call site of the module reaches, every
argument being a `\d...` capture). -/
def strToNatDigits (s : String) : Option Nat :=
  if !s.data.isEmpty && s.data.all Char.isDigit then
    some (s.data.foldl (fun a c => a * 10 + (c.toNat - 48)) 0)
  else none

/-- `_norm_year` of lines 90-94: expand a two-digit year, `<= 49` to `20xx`,
else to `19xx`; leave anything else unchanged. -/
def _norm_year (y : String) : String :=
  if y.length = 2 then
    match strToNatDigits y with
    | some n => if n ≤ 49 then "20" ++ y else "19" ++ y
    | none => y
  else y

/-- `re.fullmatch(r"\d{2}", s)` succeeds. -/
def isTwoDigit (s : String) : Bool := s.length == 2 && s.data.all Char.isDigit

/-- The record `extract_paper_meta` returns: exactly the four keys of the
dict of line 142, each a string. -/
structure PaperMeta where
  exam : String
  session : String
  paper : String
  variant : String
deriving DecidableEq, Repr

/-- The `EXAM_HINTS` loop of lines 104-107: first hint whose pattern matches
wins (`break`), else `exam` stays `"Unknown"`. -/
def examLoop (text : String) : List (String × RE) → String
  | [] => "Unknown"
  | (label, patt) :: rest =>
    match reSearch patt text with
    | some _ => label
    | none => examLoop text rest

/-- The `SESSION_PATTERNS` loop of lines 109-124: first matching pattern
wins (each kind ends in `break`), formatting its groups. -/
def sessionLoop (text : String) : List (RE × SessKind) → String
  | [] => "Unknown"
  | (patt, kind) :: rest =>
    match reSearch patt text with
    | none => sessionLoop text rest
    | some g =>
      match kind with
      | .twoMonthsYear => grpStr g 1 ++ "/" ++ grpStr g 2 ++ " " ++ _norm_year (grpStr g 3)
      | .monthYear => grpStr g 1 ++ " " ++ _norm_year (grpStr g 2)
      | .yearOnly => _norm_year (grpStr g 1)

/-- The `PAPER_PATTERNS` loop of lines 126-137, accumulating `paper` and
`variant`: only the `both` kind breaks; the `paper` and `variant` kinds
assign and keep scanning the remaining patterns. -/
def paperLoop (text : String) : List (RE × PaperKind) → String → String → String × String
  | [], p, v => (p, v)
  | (patt, kind) :: rest, p, v =>
    match reSearch patt text with
    | none => paperLoop text rest p v
    | some g =>
      match kind with
      | .both => (grpStr g 1, grpStr g 2)
      | .paperOnly => paperLoop text rest (grpStr g 1) v
      | .variantOnly => paperLoop text rest p (grpStr g 1)

/-- `extract_paper_meta` of lines 97-142.  `text = message or ""` makes a
`None` message behave as `""`, so the argument is a plain string here.  After
the three passes, a two-digit paper with no variant is split into its two
digits (`paper[0]`, `paper[1]`, line 140). -/
def extract_paper_meta (message : String) : PaperMeta :=
  let text := message
  let exam := examLoop text EXAM_HINTS
  let session := sessionLoop text SESSION_PATTERNS
  let pv := paperLoop text PAPER_PATTERNS "Unknown" "Unknown"
  let pv2 :=
    if pv.2 == "Unknown" && isTwoDigit pv.1 then (pv.1.take 1, (pv.1.drop 1).take 1)
    else pv
  { exam := exam, session := session, paper := pv2.1, variant := pv2.2 }

/-- A `PageChunk` of lines 146-149: document basename, 1-based page number,
extracted page text. -/
structure PageChunk where
  doc : String
  page : Nat
  text : String
deriving DecidableEq, Repr

/-- The similarity scorer `fuzz.token_set_ratio` (an external library the
module only compares the results of): modelled as a function to natural
numbers, the documented 0-100 score range. -/
abbrev Scorer := String → String → Nat

/-- The scan loop of `_best_page_match`, lines 180-188: `best` and
`best_score` start at `None` and `-1`; a chunk replaces the running best only
when its score is strictly greater (`s > best_score`), so ties keep the
earliest chunk. -/
def bestLoop (tsr : Scorer) (q : String) :
    List PageChunk → Option PageChunk → Int → Option PageChunk × Int
  | [], best, bestScore => (best, bestScore)
  | chunk :: rest, best, bestScore =>
    let s : Int := (tsr q chunk.text : Nat)
    if s > bestScore then bestLoop tsr q rest (some chunk) s
    else bestLoop tsr q rest best bestScore

/-- `_best_page_match` of lines 176-189.  `fz` is the `rapidfuzz` capability
(`none` models `fuzz is None`); the guard of line 178 returns `(None, 0)`
when the index is empty, the query strips to nothing, or the library is
absent; otherwise the loop scans the whole index with the stripped query. -/
def _best_page_match (fz : Option Scorer) (pdfIndex : List PageChunk)
    (query : String) : Option PageChunk × Int :=
  if pdfIndex.isEmpty || pyStrip query == "" || fz.isNone then (none, 0)
  else
    let tsr := fz.getD (fun _ _ => 0)
    bestLoop tsr (pyStrip query) pdfIndex none (-1)

/-- What opening one path yields, abstracting `os.path.exists` and
`PdfReader`: the path does not exist, `PdfReader(p)` (or iterating its pages)
raises, or it yields pages whose individual `extract_text()` may fail or
return `None` (`none`). -/
inductive DocResult where
  | missing
  | openFail
  | pages (ps : List (Option String))
deriving DecidableEq

/-- `os.path.basename`: the part after the last `/`. -/
def basename (p : String) : String :=
  ⟨(p.data.reverse.takeWhile (fun c => c != '/')).reverse⟩

/-- The page loop of lines 164-170: enumerate pages from index 0, treat a
failed extraction as `""` (lines 165-168), and append a chunk with page
number `i + 1` only when the text does not strip to nothing (line 169). -/
def loadPages (docName : String) : Nat → List (Option String) → List PageChunk
  | _, [] => []
  | i, pOpt :: rest =>
    let t := pOpt.getD ""
    if isBlank t then loadPages docName (i + 1) rest
    else { doc := docName, page := i + 1, text := t } :: loadPages docName (i + 1) rest

/-- The path loop of lines 159-173: a missing path is skipped (line 160), a
document that fails to open contributes nothing and the loop continues
(lines 171-173), a readable document contributes its non-blank pages in
order. -/
def loadPaths (fs : String → DocResult) : List String → List PageChunk
  | [] => []
  | p :: rest =>
    (match fs p with
     | DocResult.missing => []
     | DocResult.openFail => []
     | DocResult.pages ps => loadPages (basename p) 0 ps) ++ loadPaths fs rest

/-- `_load_pdfs` of lines 155-173, returning the `PDF_INDEX` contents it
appends (the module calls it once, on an empty index).  `reader` is the
`pypdf` capability: `none` models `PdfReader is None`, where the function
returns with the index left empty (line 157). -/
def _load_pdfs (reader : Option (String → DocResult)) (paths : List String) :
    List PageChunk :=
  match reader with
  | none => []
  | some fs => loadPaths fs paths

/-- `needle` occurs as a contiguous substring of `hay`. -/
def listStartsWith : List Char → List Char → Bool
  | _, [] => true
  | [], _ :: _ => false
  | a :: as, b :: bs => a == b && listStartsWith as bs

/-- Substring containment on strings, for stating what an exam label holds. -/
def strContains (hay needle : String) : Bool :=
  (List.range (hay.length + 1)).any (fun i => listStartsWith (hay.data.drop i) needle.data)
/-- C1: for every input string (a null message reaches the extractor as `""`
via `message or ""`), `extract_paper_meta` returns a `PaperMeta` record with
exactly the four string fields `exam`, `session`, `paper`, `variant` — it is
a total function into that record type, so no field is ever null or absent —
the `exam` field is either an `EXAM_HINTS` label or the sentinel `"Unknown"`,
and on the empty input all four fields are `"Unknown"`. -/
theorem extract_paper_meta_total_and_empty :
    (∀ m : String, extract_paper_meta m =
      { exam := (extract_paper_meta m).exam, session := (extract_paper_meta m).session,
        paper := (extract_paper_meta m).paper, variant := (extract_paper_meta m).variant }) ∧
    (∀ m : String, (extract_paper_meta m).exam = "Unknown" ∨
      (extract_paper_meta m).exam ∈ EXAM_HINTS.map Prod.fst) ∧
    extract_paper_meta "" =
      { exam := "Unknown", session := "Unknown", paper := "Unknown", variant := "Unknown" } := by
  refine ⟨fun m => rfl, fun m => ?_, by decide⟩
  have h : ∀ l : List (String × RE), examLoop m l = "Unknown" ∨ examLoop m l ∈ l.map Prod.fst := by
    intro l
    induction l with
    | nil => exact Or.inl rfl
    | cons hd tl ih =>
      obtain ⟨label, patt⟩ := hd
      simp only [examLoop]
      cases reSearch patt m with
      | some g => right; simp
      | none =>
        rcases ih with h | h
        · exact Or.inl h
        · right; simp [h]
  have he : (extract_paper_meta m).exam = examLoop m EXAM_HINTS := rfl
  rw [he]
  exact h EXAM_HINTS

/-- C6: `_norm_year` expands a two-digit year `Y` to `"20" ++ Y` when its
integer value is at most 49 and to `"19" ++ Y` otherwise, returns any
non-two-digit string unchanged, and in particular sends `"21"` to `"2021"`
and `"87"` to `"1987"`. -/
theorem norm_year_spec :
    (∀ (y : String) (n : Nat), y.length = 2 → strToNatDigits y = some n →
      _norm_year y = if n ≤ 49 then "20" ++ y else "19" ++ y) ∧
    (∀ y : String, y.length ≠ 2 → _norm_year y = y) ∧
    _norm_year "21" = "2021" ∧ _norm_year "87" = "1987" := by
  refine ⟨fun y n h2 hn => ?_, fun y h2 => ?_, by decide, by decide⟩
  · simp [_norm_year, h2, hn]
  · simp [_norm_year, h2]

/-- C7: on `"Cambridge IGCSE Chemistry 0620 Paper 4 Variant 2 May/Jun 2021"`
the extractor returns an exam label containing both `"Cambridge"` and
`"IGCSE"`, session `"May/Jun 2021"`, paper `"4"` and variant `"2"`. -/
theorem extract_c7_example :
    strContains (extract_paper_meta "Cambridge IGCSE Chemistry 0620 Paper 4 Variant 2 May/Jun 2021").exam "Cambridge" = true ∧
    strContains (extract_paper_meta "Cambridge IGCSE Chemistry 0620 Paper 4 Variant 2 May/Jun 2021").exam "IGCSE" = true ∧
    (extract_paper_meta "Cambridge IGCSE Chemistry 0620 Paper 4 Variant 2 May/Jun 2021").session = "May/Jun 2021" ∧
    (extract_paper_meta "Cambridge IGCSE Chemistry 0620 Paper 4 Variant 2 May/Jun 2021").paper = "4" ∧
    (extract_paper_meta "Cambridge IGCSE Chemistry 0620 Paper 4 Variant 2 May/Jun 2021").variant = "2" := by
  decide

/-- C10: on `"Paper 42"` alone the session comes out `"2042"`, not
`"Unknown"`: the bare two-digit paper code also matches the `year_only`
session alternative (`\b(20\d{2}|19\d{2}|\d{2})\b`) and is then expanded by
`_norm_year`, so a bare paper code is consumed as a session year. -/
theorem extract_c10_paper_code_as_year :
    (extract_paper_meta "Paper 42").session = "2042" := by decide
/-- Invariant of the scan loop of `_best_page_match`: the result is the
unchanged accumulator with every scanned score at most the running best, or
the index splits around a chunk of strictly greatest score, every earlier
chunk scoring strictly less (stable tie-break) and every later chunk at most
as much. -/
theorem bestLoop_spec (tsr : Scorer) (q : String) :
    ∀ (l : List PageChunk) (best : Option PageChunk) (bs : Int),
      (bestLoop tsr q l best bs = (best, bs) ∧ ∀ c ∈ l, ((tsr q c.text : Nat) : Int) ≤ bs) ∨
      (∃ l1 c l2, l = l1 ++ c :: l2 ∧
        bestLoop tsr q l best bs = (some c, ((tsr q c.text : Nat) : Int)) ∧
        bs < ((tsr q c.text : Nat) : Int) ∧
        (∀ x ∈ l1, ((tsr q x.text : Nat) : Int) < ((tsr q c.text : Nat) : Int)) ∧
        (∀ y ∈ l2, ((tsr q y.text : Nat) : Int) ≤ ((tsr q c.text : Nat) : Int))) := by
  intro l
  induction l with
  | nil => intro best bs; exact Or.inl ⟨rfl, by simp⟩
  | cons a rest ih =>
    intro best bs
    by_cases hgt : ((tsr q a.text : Nat) : Int) > bs
    · have hun : bestLoop tsr q (a :: rest) best bs
          = bestLoop tsr q rest (some a) ((tsr q a.text : Nat) : Int) := by
        simp [bestLoop, hgt]
      rcases ih (some a) ((tsr q a.text : Nat) : Int) with ⟨heq, hall⟩ | ⟨l1, c, l2, hsplit, heq, hlt, hbefore, hafter⟩
      · refine Or.inr ⟨[], a, rest, by simp, ?_, hgt, by simp, ?_⟩
        · rw [hun, heq]
        · intro y hy; exact hall y hy
      · refine Or.inr ⟨a :: l1, c, l2, by simp [hsplit], ?_, ?_, ?_, hafter⟩
        · rw [hun, heq]
        · omega
        · intro x hx
          rcases List.mem_cons.mp hx with hx | hx
          · subst hx; omega
          · exact hbefore x hx
    · have hun : bestLoop tsr q (a :: rest) best bs = bestLoop tsr q rest best bs := by
        simp [bestLoop, hgt]
      rcases ih best bs with ⟨heq, hall⟩ | ⟨l1, c, l2, hsplit, heq, hlt, hbefore, hafter⟩
      · refine Or.inl ⟨by rw [hun, heq], ?_⟩
        intro x hx
        rcases List.mem_cons.mp hx with hx | hx
        · subst hx; omega
        · exact hall x hx
      · refine Or.inr ⟨a :: l1, c, l2, by simp [hsplit], by rw [hun, heq], hlt, ?_, hafter⟩
        intro x hx
        rcases List.mem_cons.mp hx with hx | hx
        · subst hx; omega
        · exact hbefore x hx

/-- C2: on a non-empty index, a query that does not strip to nothing, and the
scorer present, `_best_page_match` returns a chunk whose score against the
stripped query is maximal over the whole index, together with that score; and
among chunks attaining the maximum it returns the earliest in index order —
the returned chunk is preceded only by strictly lower-scoring chunks. -/
theorem best_page_match_argmax (tsr : Scorer) (pdfIndex : List PageChunk) (query : String)
    (h1 : pdfIndex ≠ []) (h2 : pyStrip query ≠ "") :
    ∃ l1 c l2, pdfIndex = l1 ++ c :: l2 ∧
      _best_page_match (some tsr) pdfIndex query =
        (some c, ((tsr (pyStrip query) c.text : Nat) : Int)) ∧
      (∀ x ∈ pdfIndex, tsr (pyStrip query) x.text ≤ tsr (pyStrip query) c.text) ∧
      (∀ x ∈ l1, tsr (pyStrip query) x.text < tsr (pyStrip query) c.text) := by
  have hguard : (pdfIndex.isEmpty || pyStrip query == "" || (some tsr).isNone) = false := by
    simp [List.isEmpty_iff, h1, h2]
  have hun : _best_page_match (some tsr) pdfIndex query
      = bestLoop tsr (pyStrip query) pdfIndex none (-1) := by
    unfold _best_page_match
    rw [hguard]
    simp
  rcases bestLoop_spec tsr (pyStrip query) pdfIndex none (-1) with ⟨heq, hall⟩ | ⟨l1, c, l2, hsplit, heq, hlt, hbefore, hafter⟩
  · obtain ⟨a, ha⟩ := List.exists_mem_of_ne_nil pdfIndex h1
    have := hall a ha
    omega
  · refine ⟨l1, c, l2, hsplit, by rw [hun, heq], ?_, ?_⟩
    · intro x hx
      rw [hsplit] at hx
      rcases List.mem_append.mp hx with hx | hx
      · have := hbefore x hx; omega
      · rcases List.mem_cons.mp hx with hx | hx
        · subst hx; omega
        · have := hafter x hx; omega
    · intro x hx
      have := hbefore x hx; omega

/-- A sample scorer and index for exercising the matcher at concrete inputs. -/
def sampleScorer : Scorer := fun _ t => t.length

/-- A two-chunk sample index. -/
def sampleIndex : List PageChunk :=
  [{ doc := "QB1.pdf", page := 1, text := "aa" }, { doc := "QB2.pdf", page := 2, text := "bbb" }]

/-- Witness for C2: the argmax theorem applied to the sample scorer and
two-chunk index with query `"q"`, whose hypotheses hold by computation. -/
theorem best_page_match_argmax_witness :
    sampleIndex ≠ [] ∧ pyStrip "q" ≠ "" ∧
    (∃ l1 c l2, sampleIndex = l1 ++ c :: l2 ∧
      _best_page_match (some sampleScorer) sampleIndex "q" =
        (some c, ((sampleScorer (pyStrip "q") c.text : Nat) : Int)) ∧
      (∀ x ∈ sampleIndex, sampleScorer (pyStrip "q") x.text ≤ sampleScorer (pyStrip "q") c.text) ∧
      (∀ x ∈ l1, sampleScorer (pyStrip "q") x.text < sampleScorer (pyStrip "q") c.text)) :=
  ⟨by decide, by decide, best_page_match_argmax sampleScorer sampleIndex "q" (by decide) (by decide)⟩

/-- C3: whenever the index is empty, or the query is blank (strips to
nothing), or the scorer capability is absent, `_best_page_match` returns
`(none, 0)`; in particular on an empty index it does so for every query. -/
theorem best_page_match_degenerate (fz : Option Scorer) (pdfIndex : List PageChunk)
    (query : String) (h : pdfIndex = [] ∨ pyStrip query = "" ∨ fz = none) :
    _best_page_match fz pdfIndex query = (none, 0) := by
  rcases h with h | h | h <;> simp [_best_page_match, h, List.isEmpty_iff]

/-- Witness for C3: the degenerate case at an empty index with the non-empty
query `"hello"` and the scorer present. -/
theorem best_page_match_degenerate_witness :
    (([] : List PageChunk) = [] ∨ pyStrip "hello" = "" ∨ (some sampleScorer) = none) ∧
    _best_page_match (some sampleScorer) [] "hello" = (none, 0) :=
  ⟨Or.inl rfl, best_page_match_degenerate (some sampleScorer) [] "hello" (Or.inl rfl)⟩
/-- Counterexample to C4 as stated: on `"P 7 Paper 3"` the explicit
`\bPaper\s*(\d{1,2})\b` pattern matches and captures `"3"`, yet the function
returns paper `"7"` — the abbreviated `\bP(?:aper)?\s*(\d{1,2})\b` pattern,
evaluated after it without a break, rebinds the field from its own leftmost
match `"P 7"`. -/
theorem paper_precedence_counterexample :
    (reSearch patPaperOnly "P 7 Paper 3").map (fun g => grpStr g 1) = some "3" ∧
    (reSearch patPAbbrev "P 7 Paper 3").map (fun g => grpStr g 1) = some "7" ∧
    (extract_paper_meta "P 7 Paper 3").paper = "7" := by decide

/-- C4 as amended: the `Paper N Variant M` pattern short-circuits the family,
but a `Paper N` binding is not final — the `paper`-kind assignments do not
break, so whenever the combined pattern fails and the abbreviated
`P(?:aper)? N` pattern matches, the paper field leaving the pass equals the
abbreviated pattern's leftmost capture (which coincides with the `Paper N`
capture only when no abbreviated form matches earlier in the text), whatever
the earlier `Paper N` and `Variant M` outcomes. -/
theorem paper_pass_abbrev_overrides (text cap : String)
    (hb : reSearch patPaperVariant text = none)
    (h4 : (reSearch patPAbbrev text).map (fun g => grpStr g 1) = some cap) :
    (paperLoop text PAPER_PATTERNS "Unknown" "Unknown").1 = cap := by
  obtain ⟨g4, hg4, hcap⟩ : ∃ g, reSearch patPAbbrev text = some g ∧ grpStr g 1 = cap := by
    cases h : reSearch patPAbbrev text with
    | none => rw [h] at h4; simp at h4
    | some g => rw [h] at h4; exact ⟨g, rfl, by simpa using h4⟩
  simp only [PAPER_PATTERNS, paperLoop, hb]
  cases h2 : reSearch patPaperOnly text <;> cases h3 : reSearch patVariantOnly text <;>
    simp [paperLoop, h2, h3, hg4, hcap]

/-- Witness for the amended C4: at `"P 7 Paper 3"` the combined pattern fails,
the abbreviated pattern captures `"7"`, and the pass indeed leaves paper
`"7"`. -/
theorem paper_pass_abbrev_overrides_witness :
    reSearch patPaperVariant "P 7 Paper 3" = none ∧
    (reSearch patPAbbrev "P 7 Paper 3").map (fun g => grpStr g 1) = some "7" ∧
    (paperLoop "P 7 Paper 3" PAPER_PATTERNS "Unknown" "Unknown").1 = "7" :=
  ⟨by decide, by decide,
    paper_pass_abbrev_overrides "P 7 Paper 3" "7" (by decide) (by decide)⟩

/-- C5: whenever the paper/variant pass leaves a two-digit paper capture and
no variant, the extractor splits the code, returning its first digit as
`paper` and its second digit as `variant`. -/
theorem extract_digit_split (text p : String)
    (hpv : paperLoop text PAPER_PATTERNS "Unknown" "Unknown" = (p, "Unknown"))
    (h2 : isTwoDigit p = true) :
    (extract_paper_meta text).paper = p.take 1 ∧
    (extract_paper_meta text).variant = (p.drop 1).take 1 := by
  simp [extract_paper_meta, hpv, h2]

/-- Witness for C5: on `"Paper 42"` alone the pass yields `("42", "Unknown")`
and the extractor returns paper `"4"` and variant `"2"` by digit-splitting. -/
theorem extract_digit_split_witness :
    paperLoop "Paper 42" PAPER_PATTERNS "Unknown" "Unknown" = ("42", "Unknown") ∧
    isTwoDigit "42" = true ∧
    ((extract_paper_meta "Paper 42").paper = "42".take 1 ∧
      (extract_paper_meta "Paper 42").variant = ("42".drop 1).take 1) ∧
    (extract_paper_meta "Paper 42").paper = "4" ∧
    (extract_paper_meta "Paper 42").variant = "2" :=
  ⟨by decide, by decide, extract_digit_split "Paper 42" "42" (by decide) (by decide),
    by decide, by decide⟩
/-- C8: the corpus loader skips a path that does not exist or whose document
fails to open and continues with the remaining paths unchanged — removing
such a path from anywhere in the list leaves the resulting index identical;
with one valid and one bad path the index holds exactly the valid path's
chunks. -/
theorem load_pdfs_skips_bad_path (fs : String → DocResult) (p : String)
    (h : fs p = DocResult.missing ∨ fs p = DocResult.openFail) :
    ∀ pre post : List String,
      _load_pdfs (some fs) (pre ++ p :: post) = _load_pdfs (some fs) (pre ++ post) := by
  intro pre post
  induction pre with
  | nil =>
    simp only [List.nil_append, _load_pdfs, loadPaths]
    rcases h with h | h <;> rw [h] <;> simp
  | cons a t ih =>
    simp only [List.cons_append, _load_pdfs, loadPaths, List.append_eq] at ih ⊢
    rw [ih]

/-- A sample filesystem: one readable one-page document, everything else
missing. -/
def sampleFs : String → DocResult := fun s =>
  if s == "QB1.pdf" then DocResult.pages [some "hello"] else DocResult.missing

/-- Witness for C8: loading `["QB1.pdf", "QB9.pdf"]` where `QB9.pdf` does not
exist equals loading `["QB1.pdf"]`, and that index is exactly the valid
document's one chunk. -/
theorem load_pdfs_skips_bad_path_witness :
    (sampleFs "QB9.pdf" = DocResult.missing ∨ sampleFs "QB9.pdf" = DocResult.openFail) ∧
    _load_pdfs (some sampleFs) (["QB1.pdf"] ++ "QB9.pdf" :: []) =
      _load_pdfs (some sampleFs) (["QB1.pdf"] ++ []) ∧
    _load_pdfs (some sampleFs) ["QB1.pdf", "QB9.pdf"] =
      [{ doc := "QB1.pdf", page := 1, text := "hello" }] :=
  ⟨Or.inl rfl,
    load_pdfs_skips_bad_path sampleFs "QB9.pdf" (Or.inl rfl) ["QB1.pdf"] [],
    by decide⟩

/-- Every chunk the page loop emits has non-blank text: a page whose
extracted text is empty or all whitespace (including failed extractions,
treated as `""`) is never appended. -/
theorem loadPages_no_blank (docName : String) :
    ∀ (ps : List (Option String)) (i : Nat) (chunk : PageChunk),
      chunk ∈ loadPages docName i ps → isBlank chunk.text = false := by
  intro ps
  induction ps with
  | nil => intro i chunk h; simp [loadPages] at h
  | cons pOpt rest ih =>
    intro i chunk h
    by_cases hb : isBlank (pOpt.getD "")
    · rw [loadPages, if_pos hb] at h
      exact ih (i + 1) chunk h
    · rw [loadPages, if_neg hb] at h
      rcases List.mem_cons.mp h with h | h
      · subst h; exact Bool.not_eq_true _ ▸ (by simpa using hb)
      · exact ih (i + 1) chunk h

/-- C9: after loading, every chunk of the resulting index has non-blank
text — whatever the reader capability, the paths and the per-page extraction
outcomes, no indexed chunk's text is empty or all-whitespace. -/
theorem load_pdfs_no_blank_chunks (reader : Option (String → DocResult))
    (paths : List String) (chunk : PageChunk)
    (hmem : chunk ∈ _load_pdfs reader paths) : isBlank chunk.text = false := by
  cases reader with
  | none => simp [_load_pdfs] at hmem
  | some fs =>
    simp only [_load_pdfs] at hmem
    induction paths with
    | nil => simp [loadPaths] at hmem
    | cons p rest ih =>
      rw [loadPaths] at hmem
      rcases List.mem_append.mp hmem with hmem | hmem
      · cases hfp : fs p with
        | missing => rw [hfp] at hmem; simp at hmem
        | openFail => rw [hfp] at hmem; simp at hmem
        | pages ps =>
          rw [hfp] at hmem
          exact loadPages_no_blank (basename p) ps 0 chunk hmem
      · exact ih hmem

/-- Witness for C9: the chunk loaded from the sample filesystem is in the
index and its text `"hello"` is not blank. -/
theorem load_pdfs_no_blank_chunks_witness :
    ({ doc := "QB1.pdf", page := 1, text := "hello" } : PageChunk) ∈
      _load_pdfs (some sampleFs) ["QB1.pdf"] ∧
    isBlank ({ doc := "QB1.pdf", page := 1, text := "hello" } : PageChunk).text = false :=
  ⟨by decide,
    load_pdfs_no_blank_chunks (some sampleFs) ["QB1.pdf"]
      { doc := "QB1.pdf", page := 1, text := "hello" } (by decide)⟩
